import Mathlib

/-!
Shallow embedding of the articles search-index synchronization engine
(`src/src/pages/search/images.tsx`, third document: the
`articlesSearchIndex` processor built from `onIndexSetup`,
`onFetchItemsToIndex` and `onIndexUpdate`).

Relational rows, the Prisma `where` filter, the Meilisearch client and the
event trace of a sync pass are modelled explicitly; timestamps are `Nat`.
Collaborator code that lives outside `src/` (the Meilisearch helper
`waitForTasksWithRetries`, the client method `updateDocumentsInBatches`,
and the `createSearchIndexUpdateProcessor` wrapper) is modelled from the
specification and marked as such in its doc comment.
-/

namespace CivitaiSearchIndex

/-- Constant from the source: `const READ_BATCH_SIZE = 1000`. -/
def READ_BATCH_SIZE : Nat := 1000

/-- Constant from the source: `const MEILISEARCH_DOCUMENT_BATCH_SIZE = 25`. -/
def MEILISEARCH_DOCUMENT_BATCH_SIZE : Nat := 25

/-- Constant from the source: `const INDEX_ID = 'articles'`. -/
def INDEX_ID : String := "articles"

/-- Constant from the source: `const SWAP_INDEX_ID = INDEX_ID ++ "_NEW"`. -/
def SWAP_INDEX_ID : String := INDEX_ID ++ "_NEW"

/-- Prisma enum `MetricTimeframe`. -/
inductive MetricTimeframe
  | Day
  | Week
  | Month
  | Year
  | AllTime
deriving DecidableEq, Repr

/-- One row of the per-article metrics table: a timeframe plus the count
columns selected by `onFetchItemsToIndex`. -/
structure ArticleMetric where
  timeframe : MetricTimeframe
  commentCount : Nat
  cryCount : Nat
  dislikeCount : Nat
  favoriteCount : Nat
  heartCount : Nat
  hideCount : Nat
  laughCount : Nat
  viewCount : Nat
  likeCount : Nat
deriving DecidableEq, Repr

/-- A tag row (`tag.name` is the display value used by the flattener). -/
structure Tag where
  name : String
deriving DecidableEq, Repr

/-- An article-to-tag association row, as selected (`tags: ... tag.name`). -/
structure ArticleTag where
  tag : Tag
deriving DecidableEq, Repr

/-- A relational `Article` row together with its nested sub-collections,
restricted to the columns the sync engine reads: the filter columns
(`publishedAt`, `tosViolation`, `createdAt`, `updatedAt`, `id`) and the
selected payload (`title`, `content`, tags, metrics rows). -/
structure Article where
  id : Nat
  createdAt : Nat
  updatedAt : Nat
  publishedAt : Option Nat
  tosViolation : Bool
  title : String
  content : String
  tags : List ArticleTag
  metrics : List ArticleMetric
deriving DecidableEq, Repr

/-- The metric columns named in the `select` of `onFetchItemsToIndex`
(the `timeframe` column itself is not selected). -/
structure MetricCounts where
  commentCount : Nat
  cryCount : Nat
  dislikeCount : Nat
  favoriteCount : Nat
  heartCount : Nat
  hideCount : Nat
  laughCount : Nat
  viewCount : Nat
  likeCount : Nat
deriving DecidableEq, Repr

/-- Projection of a metrics row to its selected count columns. -/
def ArticleMetric.counts (m : ArticleMetric) : MetricCounts :=
  { commentCount := m.commentCount
    cryCount := m.cryCount
    dislikeCount := m.dislikeCount
    favoriteCount := m.favoriteCount
    heartCount := m.heartCount
    hideCount := m.hideCount
    laughCount := m.laughCount
    viewCount := m.viewCount
    likeCount := m.likeCount }

/-- The all-zero metric counts object (what the spec calls the zero-valued
default). The source never builds this value; it is stated so that the
spec reading of the transformer can be compared with the code. -/
def zeroMetricCounts : MetricCounts :=
  { commentCount := 0, cryCount := 0, dislikeCount := 0, favoriteCount := 0
    heartCount := 0, hideCount := 0, laughCount := 0, viewCount := 0
    likeCount := 0 }

/-- Shape of one element of `db.article.findMany` result: the article
scalar columns plus the metrics sub-collection already filtered to the
`AllTime` timeframe by the nested `where`. -/
structure ArticleSelected where
  id : Nat
  createdAt : Nat
  updatedAt : Nat
  publishedAt : Option Nat
  title : String
  content : String
  tags : List ArticleTag
  metrics : List MetricCounts
deriving DecidableEq, Repr

/-- The nested `select` applied to one article row: scalar columns are kept
and the metrics sub-collection is filtered by
`where: timeframe = MetricTimeframe.AllTime` with only the count columns
selected. -/
def selectArticle (a : Article) : ArticleSelected :=
  { id := a.id
    createdAt := a.createdAt
    updatedAt := a.updatedAt
    publishedAt := a.publishedAt
    title := a.title
    content := a.content
    tags := a.tags
    metrics :=
      (a.metrics.filter (fun m => m.timeframe = MetricTimeframe.AllTime)).map
        ArticleMetric.counts }

/-- One disjunct of the Prisma `whereOr` list built by `onIndexUpdate`:
`createdAt > t`, `updatedAt > t`, or `id ∈ ids`. -/
inductive ArticleWhereInput
  | createdAtGt (t : Nat)
  | updatedAtGt (t : Nat)
  | idIn (ids : List Nat)
deriving DecidableEq, Repr

/-- Evaluation of one `whereOr` disjunct against an article row. -/
def evalWhereInput : ArticleWhereInput → Article → Bool
  | .createdAtGt t, a => decide (t < a.createdAt)
  | .updatedAtGt t, a => decide (t < a.updatedAt)
  | .idIn ids, a => ids.contains a.id

/-- The baseline inclusion predicates of the fetch `where` clause:
`publishedAt: not null` and `tosViolation: false`. -/
def articleBaseWhere (a : Article) : Bool :=
  a.publishedAt.isSome && !a.tosViolation

/-- The whole `where` clause of `db.article.findMany` in
`onFetchItemsToIndex`: the baseline predicates in conjunction with the
optional `OR` list (absent `OR` imposes no restriction; a present `OR`
list holds when some disjunct holds, matching Prisma semantics). -/
def articleWhere (whereOr : Option (List ArticleWhereInput)) (a : Article) : Bool :=
  articleBaseWhere a &&
    match whereOr with
    | none => true
    | some conds => conds.any (fun w => evalWhereInput w a)

/-- The transformed, index-ready record produced by `onFetchItemsToIndex`.
The `metrics` field models the JavaScript spread
`\x7b ...(articleRecord.metrics[0] || \x7b\x7d) \x7d`: `some c` is the
object spread from the first selected metrics row, `none` is the empty
object produced when the sub-collection is empty. -/
structure ArticleIndexRecord where
  id : Nat
  createdAt : Nat
  updatedAt : Nat
  publishedAt : Option Nat
  title : String
  content : String
  metrics : Option MetricCounts
  tags : List String
deriving DecidableEq, Repr

/-- The record transformation inside `onFetchItemsToIndex`: collapse the
selected metrics sub-collection to its first row (empty object when there
is none) and flatten the tag association rows to the tag display names. -/
def transformArticle (a : ArticleSelected) : ArticleIndexRecord :=
  { id := a.id
    createdAt := a.createdAt
    updatedAt := a.updatedAt
    publishedAt := a.publishedAt
    title := a.title
    content := a.content
    metrics := a.metrics.head?
    tags := a.tags.map (fun articleTag => articleTag.tag.name) }

/-- `onFetchItemsToIndex`: page the article table with the given filter
(`skip` offset, `take READ_BATCH_SIZE`), return `[]` when the page is
empty, otherwise map every fetched row through the record transformation.
The article table is modelled as the list `db`; `findMany` keeps table
order. -/
def onFetchItemsToIndex (db : List Article)
    (whereOr : Option (List ArticleWhereInput)) (skip : Option Nat) :
    List ArticleIndexRecord :=
  let offset := skip.getD 0
  let articles :=
    (((db.filter (articleWhere whereOr)).drop offset).take READ_BATCH_SIZE).map
      selectArticle
  if articles.length = 0 then []
  else articles.map transformArticle

/-- The three attribute lists of a Meilisearch index settings object, as
returned by `index.getSettings()` (only these three are read or written by
the setup code). -/
structure IndexSettings where
  searchableAttributes : List String
  sortableAttributes : List String
  filterableAttributes : List String
deriving DecidableEq, Repr

/-- Possible states of an asynchronous Meilisearch task when polled. -/
inductive TaskStatus
  | succeeded
  | failed
  | processing
deriving DecidableEq, Repr

/-- Errors of the task-waiting step: retries exhausted with tasks still
pending, or a task reaching a terminal failure state. -/
inductive WaitError
  | timeout
  | taskFailure
deriving DecidableEq, Repr

/-- The injected Meilisearch client handle. `getIndex` models
`getOrCreateIndex` returning the index handle together with the settings
`getSettings` would observe, or `none` when no handle is obtained;
`taskStatus attempt uid` is the status the service reports for task `uid`
on polling round `attempt`. -/
structure MeiliClient where
  getIndex : String → Option IndexSettings
  taskStatus : Nat → Nat → TaskStatus

/-- Insertion step for `jsSortStrings`. -/
def insertSorted (s : String) : List String → List String
  | [] => [s]
  | x :: xs => if s ≤ x then s :: x :: xs else x :: insertSorted s xs

/-- JavaScript `Array.prototype.sort()` on an array of strings: sort by
string comparison (it is applied to `filterableAttributes`, mirroring the
comment that Meilisearch stores the list sorted). -/
def jsSortStrings : List String → List String
  | [] => []
  | x :: xs => insertSorted x (jsSortStrings xs)

/-- The searchable attribute list passed to
`index.updateSearchableAttributes` in `onIndexSetup`. -/
def articleSearchableAttributes : List String :=
  ["title", "content", "tags", "user.username"]

/-- The sortable attribute list passed to
`index.updateSortableAttributes` in `onIndexSetup`. -/
def articleSortableAttributes : List String :=
  ["createdAt", "metrics.commentCount", "metrics.favoriteCount", "metrics.viewCount"]

/-- The local `const filterableAttributes = ['tags']` of `onIndexSetup`. -/
def filterableAttributes : List String := ["tags"]

/-- Observable operations of one sync pass, in order of occurrence. -/
inductive SyncEvent
  | getOrCreateIndex (indexName : String)
  | updateSearchableAttributes (indexName : String) (attrs : List String)
  | updateSortableAttributes (indexName : String) (attrs : List String)
  | updateFilterableAttributes (indexName : String) (attrs : List String)
  | documentsCleanup (indexName : String)
  | readUpdateQueue (queueType : String)
  | fetchPage (whereOr : Option (List ArticleWhereInput)) (offset : Nat) (size : Nat)
  | submitBatch (indexName : String) (batch : List ArticleIndexRecord)
  | waitForTasks (taskCount : Nat)
deriving DecidableEq, Repr

/-- `onIndexSetup`, as its trace of index operations: bail out when the
client handle is absent; get or create the index and bail out when no
handle results; always issue the searchable- and sortable-attributes
update tasks; issue the filterable-attributes update task only when the
sorted desired list differs from the settings currently stored (the
`JSON.stringify` comparison of the source is list equality). -/
def onIndexSetup (client : Option MeiliClient) (indexName : String) : List SyncEvent :=
  match client with
  | none => []
  | some c =>
    match c.getIndex indexName with
    | none => [SyncEvent.getOrCreateIndex indexName]
    | some settings =>
      [SyncEvent.getOrCreateIndex indexName,
       SyncEvent.updateSearchableAttributes indexName articleSearchableAttributes,
       SyncEvent.updateSortableAttributes indexName articleSortableAttributes] ++
      (if jsSortStrings filterableAttributes ≠ settings.filterableAttributes then
        [SyncEvent.updateFilterableAttributes indexName filterableAttributes]
      else [])

/-- A row of the `searchIndexUpdateQueue` table (the dirty queue), with the
columns the sync pass touches. -/
structure QueueRow where
  id : Nat
  type : String
deriving DecidableEq, Repr

/-- The relational store visible to the pass: the article table and the
dirty-queue table. -/
structure Db where
  articles : List Article
  searchIndexUpdateQueue : List QueueRow
deriving DecidableEq, Repr

/-- Worker of `updateDocumentsInBatches`: peel off one sub-batch per step.
The fuel argument only bounds the number of steps; the wrapper passes the
input length, which always suffices because every step consumes at least
one document. -/
def updateDocumentsInBatchesGo (batchSize : Nat) : Nat → List α → List (List α)
  | _, [] => []
  | 0, _ :: _ => []
  | fuel + 1, x :: xs =>
    (x :: xs.take (batchSize - 1)) ::
      updateDocumentsInBatchesGo batchSize fuel (xs.drop (batchSize - 1))

/-- Modelled from the spec: `updateDocumentsInBatches` is a method of the
external Meilisearch client library, not code under src/. Per the spec it
splits the input into consecutive fixed-size sub-batches before
submission, one submission call (and one returned task) per sub-batch. -/
def updateDocumentsInBatches (docs : List α) (batchSize : Nat) : List (List α) :=
  updateDocumentsInBatchesGo batchSize docs.length docs

/-- The sub-batch lengths produced by `updateDocumentsInBatchesGo`, as a
function of the input length alone. -/
def chunkLensGo (batchSize : Nat) : Nat → Nat → List Nat
  | _, 0 => []
  | 0, _ + 1 => []
  | fuel + 1, n + 1 =>
    (1 + min (batchSize - 1) n) :: chunkLensGo batchSize fuel (n - (batchSize - 1))

/-- Modelled from the spec: worker loop of `waitForTasksWithRetries`
(`server/meilisearch/util`, not code under src/). On each polling round a
terminal-failure task aborts with a hard error, all-succeeded returns
success, and otherwise the round is retried until the retry budget is
exhausted, which yields the timeout error. -/
def waitForTasksGo (status : Nat → Nat → TaskStatus) (taskUids : List Nat)
    (attempt : Nat) : Nat → Except WaitError Unit
  | 0 => Except.error WaitError.timeout
  | retriesLeft + 1 =>
    if taskUids.any (fun t => status attempt t == TaskStatus.failed) then
      Except.error WaitError.taskFailure
    else if taskUids.all (fun t => status attempt t == TaskStatus.succeeded) then
      Except.ok ()
    else
      waitForTasksGo status taskUids (attempt + 1) retriesLeft

/-- Modelled from the spec: `waitForTasksWithRetries`
(`server/meilisearch/util`, not code under src/): poll all given tasks
with bounded retries; an empty task list is immediate success with no
polling round. -/
def waitForTasksWithRetries (status : Nat → Nat → TaskStatus) (taskUids : List Nat)
    (maxRetries : Nat) : Except WaitError Unit :=
  if taskUids.isEmpty then Except.ok ()
  else waitForTasksGo status taskUids 0 maxRetries

/-- The `whereOr` argument built by `onIndexUpdate` for its fetches: absent
watermark gives no `OR` restriction, a present watermark gives the
three-way disjunction over `createdAt`, `updatedAt` and the dirty-queue id
snapshot. -/
def articleWhereOr (lastUpdatedAt : Option Nat) (queuedIds : List Nat) :
    Option (List ArticleWhereInput) :=
  match lastUpdatedAt with
  | none => none
  | some w =>
    some [ArticleWhereInput.createdAtGt w, ArticleWhereInput.updatedAtGt w,
      ArticleWhereInput.idIn queuedIds]

/-- One unrolling step of the `while (true)` paging loop of
`onIndexUpdate`: fetch a page at the current offset; when it is empty,
break (the empty fetch is still recorded); otherwise submit the page in
fixed-size sub-batches, collect the tasks, advance the offset by the page
length and continue. Returns the event trace of the loop and the
submitted sub-batches (one task each) in submission order. The fuel
argument only bounds the number of iterations; the `syncLoop` wrapper
passes enough fuel for the bound never to bite, which the fetch-chain
theorem below makes precise. -/
def syncLoopGo (db : Db) (indexName : String)
    (whereOr : Option (List ArticleWhereInput)) :
    Nat → Nat → List SyncEvent × List (List ArticleIndexRecord)
  | _, 0 => ([], [])
  | offset, fuel + 1 =>
    let records := onFetchItemsToIndex db.articles whereOr (some offset)
    if records.length = 0 then
      ([SyncEvent.fetchPage whereOr offset 0], [])
    else
      let batches := updateDocumentsInBatches records MEILISEARCH_DOCUMENT_BATCH_SIZE
      let rest := syncLoopGo db indexName whereOr (offset + records.length) fuel
      (SyncEvent.fetchPage whereOr offset records.length ::
         (batches.map (fun b => SyncEvent.submitBatch indexName b) ++ rest.1),
       batches ++ rest.2)

/-- The paging loop of `onIndexUpdate`, started at the given offset. Every
iteration past the first consumes at least one article of the table, so
`db.articles.length + 1` iterations always reach the empty page. -/
def syncLoop (db : Db) (indexName : String)
    (whereOr : Option (List ArticleWhereInput)) (offset : Nat) :
    List SyncEvent × List (List ArticleIndexRecord) :=
  syncLoopGo db indexName whereOr offset (db.articles.length + 1)

/-- The dirty-queue id snapshot read by `onIndexUpdate`:
`db.searchIndexUpdateQueue.findMany` selecting `id` where
`type = INDEX_ID`, then `queuedItems.map(({ id }) => id)`. -/
def dirtyIdSnapshot (db : Db) : List Nat :=
  (db.searchIndexUpdateQueue.filter (fun q => q.type = INDEX_ID)).map QueueRow.id

/-- `onIndexUpdate`: bail out when the client handle is absent; run
`onIndexSetup`, run the documents cleanup with the constant `INDEX_ID`
(never the passed index name), read the dirty-queue id snapshot for
`INDEX_ID` once, run the paging loop from offset 0 with the `whereOr`
filter built from the watermark and that snapshot, and finally wait on all
collected tasks. The `Except` component is the outcome of the wait step
(the only failing step modelled). -/
def onIndexUpdate (client : Option MeiliClient) (db : Db)
    (lastUpdatedAt : Option Nat) (indexName : String) (maxRetries : Nat) :
    List SyncEvent × Except WaitError Unit :=
  match client with
  | none => ([], Except.ok ())
  | some c =>
    let setupEvents := onIndexSetup (some c) indexName
    let loopResult := syncLoop db indexName (articleWhereOr lastUpdatedAt (dirtyIdSnapshot db)) 0
    let waitResult :=
      waitForTasksWithRetries c.taskStatus (List.range loopResult.2.length) maxRetries
    (setupEvents ++
       [SyncEvent.documentsCleanup INDEX_ID, SyncEvent.readUpdateQueue INDEX_ID] ++
       loopResult.1 ++ [SyncEvent.waitForTasks loopResult.2.length],
     waitResult)

/-- Persistent state owned by one entity type across runs: the store and
the stored watermark. -/
structure SyncRunState where
  db : Db
  lastUpdatedAt : Option Nat
deriving Repr

/-- Modelled from the spec: the run wrapper produced by
`createSearchIndexUpdateProcessor` (`server/search-index/base.search-index`,
not code under src/). It executes `onIndexUpdate` with the stored
watermark; on success it commits the watermark to `now` (captured before
the loop started) and deletes the consumed dirty-queue rows; on failure it
leaves the watermark and the dirty queue untouched. -/
def runSearchIndexSync (client : Option MeiliClient) (st : SyncRunState)
    (now : Nat) (indexName : String) (maxRetries : Nat) :
    SyncRunState × Except WaitError Unit :=
  match (onIndexUpdate client st.db st.lastUpdatedAt indexName maxRetries).2 with
  | Except.error e => (st, Except.error e)
  | Except.ok _ =>
    ({ db := { articles := st.db.articles
               searchIndexUpdateQueue :=
                 st.db.searchIndexUpdateQueue.filter (fun q => q.type ≠ INDEX_ID) }
       lastUpdatedAt := some now },
     Except.ok ())

/-- The (offset, page size) pair of a fetch event, `none` for any other
event. -/
def fetchPageInfo : SyncEvent → Option (Nat × Nat)
  | SyncEvent.fetchPage _ o s => some (o, s)
  | _ => none

/-- The fetch events of the paging loop, as (offset, page size) pairs in
order of occurrence. -/
def syncFetches (db : Db) (indexName : String)
    (whereOr : Option (List ArticleWhereInput)) (offset : Nat) : List (Nat × Nat) :=
  (syncLoop db indexName whereOr offset).1.filterMap fetchPageInfo

/-- Well-formedness of a fetch chain: at least one fetch happened, every
fetch but the last returned a nonempty page and advanced the offset by
exactly the returned page length, and the last fetch (the sole loop exit)
returned the empty page. -/
def fetchChainOk : List (Nat × Nat) → Bool
  | [] => false
  | [(_, s)] => s == 0
  | (o, s) :: p :: rest => (s != 0) && (p.1 == o + s) && fetchChainOk (p :: rest)

/-- Recognizer for fetch events of a trace. -/
def isFetchPage : SyncEvent → Bool
  | SyncEvent.fetchPage _ _ _ => true
  | _ => false

/-- Recognizer for dirty-queue read events of a trace. -/
def isReadUpdateQueue : SyncEvent → Bool
  | SyncEvent.readUpdateQueue _ => true
  | _ => false

/-- Concrete input: an article carrying an all-time metrics row, a second
timeframe row and one tag, published and not violating terms of service. -/
def sampleMetricAllTime : ArticleMetric :=
  { timeframe := MetricTimeframe.AllTime, commentCount := 3, cryCount := 1
    dislikeCount := 2, favoriteCount := 4, heartCount := 5, hideCount := 0
    laughCount := 6, viewCount := 70, likeCount := 8 }

/-- Concrete input: a day-timeframe metrics row. -/
def sampleMetricDay : ArticleMetric :=
  { timeframe := MetricTimeframe.Day, commentCount := 1, cryCount := 0
    dislikeCount := 0, favoriteCount := 1, heartCount := 0, hideCount := 0
    laughCount := 0, viewCount := 9, likeCount := 1 }

/-- Concrete input: a published article with metrics and one tag. -/
def sampleArticle : Article :=
  { id := 7, createdAt := 10, updatedAt := 20, publishedAt := some 12
    tosViolation := false, title := "a title", content := "a body"
    tags := [{ tag := { name := "anime" } }]
    metrics := [sampleMetricDay, sampleMetricAllTime] }

/-- Concrete input: a published article whose metrics sub-collection has
no all-time row. -/
def sampleArticleNoAllTime : Article :=
  { id := 9, createdAt := 30, updatedAt := 6, publishedAt := some 31
    tosViolation := false, title := "another title", content := "another body"
    tags := [{ tag := { name := "photo" } }]
    metrics := [sampleMetricDay] }

/-- Concrete input: a store with one indexable article and a dirty queue
holding a duplicated entry for it plus an entry of another type. -/
def sampleDb : Db :=
  { articles := [sampleArticle]
    searchIndexUpdateQueue :=
      [{ id := 7, type := "articles" }, { id := 7, type := "articles" },
       { id := 3, type := "models" }] }

/-- Concrete input: index settings equal to every desired attribute list
(the filterable one in its sorted form). -/
def sampleSettingsMatching : IndexSettings :=
  { searchableAttributes := articleSearchableAttributes
    sortableAttributes := articleSortableAttributes
    filterableAttributes := ["tags"] }

/-- Concrete input: a client whose tasks never leave the processing state. -/
def sampleClientStalled : MeiliClient :=
  { getIndex := fun _ => some sampleSettingsMatching
    taskStatus := fun _ _ => TaskStatus.processing }

/-- Concrete input: a client whose tasks always succeed immediately. -/
def sampleClientOk : MeiliClient :=
  { getIndex := fun _ => some sampleSettingsMatching
    taskStatus := fun _ _ => TaskStatus.succeeded }

/-- Concrete input: run state holding `sampleDb` and a stored watermark. -/
def sampleState : SyncRunState :=
  { db := sampleDb, lastUpdatedAt := some 5 }

/-- Concrete input: 57 transformed documents for the batching boundary. -/
def sampleDocs57 : List ArticleIndexRecord :=
  (List.range 57).map fun i =>
    { id := i, createdAt := 0, updatedAt := 0, publishedAt := none
      title := "", content := "", metrics := none, tags := [] }

/-! Helper lemmas shared by the claim theorems. -/

theorem onFetchItemsToIndex_eq (db : List Article)
    (whereOr : Option (List ArticleWhereInput)) (skip : Option Nat) :
    onFetchItemsToIndex db whereOr skip =
      (((db.filter (articleWhere whereOr)).drop (skip.getD 0)).take READ_BATCH_SIZE).map
        (fun a => transformArticle (selectArticle a)) := by
  simp only [onFetchItemsToIndex]
  split
  · next h =>
    rw [List.length_eq_zero, List.map_eq_nil_iff] at h
    rw [h]
    simp
  · rw [List.map_map]
    rfl

theorem onFetchItemsToIndex_length (db : List Article)
    (whereOr : Option (List ArticleWhereInput)) (offset : Nat) :
    (onFetchItemsToIndex db whereOr (some offset)).length
      = min READ_BATCH_SIZE ((db.filter (articleWhere whereOr)).length - offset) := by
  rw [onFetchItemsToIndex_eq]
  simp [List.length_take, List.length_drop]

theorem updateDocumentsInBatchesGo_join (batchSize : Nat) :
    ∀ (fuel : Nat) (docs : List α), docs.length ≤ fuel →
      (updateDocumentsInBatchesGo batchSize fuel docs).flatten = docs := by
  intro fuel
  induction fuel with
  | zero =>
    intro docs h
    rw [Nat.le_zero, List.length_eq_zero] at h
    rw [h]
    rfl
  | succ n ih =>
    intro docs h
    match docs with
    | [] => rfl
    | x :: xs =>
      simp only [updateDocumentsInBatchesGo, List.flatten_cons]
      rw [ih]
      · simp [List.take_append_drop]
      · simp only [List.length_drop]
        simp only [List.length_cons] at h
        omega

theorem updateDocumentsInBatchesGo_lengths (batchSize : Nat) :
    ∀ (fuel : Nat) (docs : List α),
      (updateDocumentsInBatchesGo batchSize fuel docs).map List.length
        = chunkLensGo batchSize fuel docs.length := by
  intro fuel
  induction fuel with
  | zero => intro docs; cases docs <;> rfl
  | succ n ih =>
    intro docs
    cases docs with
    | nil => rfl
    | cons x xs =>
      simp only [updateDocumentsInBatchesGo, List.map_cons, List.length_cons, chunkLensGo]
      rw [ih]
      simp [List.length_take, List.length_drop, Nat.add_comm]

theorem syncLoopGo_events (db : Db) (indexName : String)
    (whereOr : Option (List ArticleWhereInput)) :
    ∀ (fuel offset : Nat) (e : SyncEvent),
      e ∈ (syncLoopGo db indexName whereOr offset fuel).1 →
      (∃ o s, e = SyncEvent.fetchPage whereOr o s)
      ∨ (∃ b, e = SyncEvent.submitBatch indexName b) := by
  intro fuel
  induction fuel with
  | zero =>
    intro offset e h
    simp [syncLoopGo] at h
  | succ n ih =>
    intro offset e h
    simp only [syncLoopGo] at h
    split at h
    · simp only [List.mem_singleton] at h
      exact Or.inl ⟨offset, 0, h⟩
    · simp only [List.mem_cons, List.mem_append, List.mem_map] at h
      rcases h with h | h | h
      · exact Or.inl ⟨offset, _, h⟩
      · obtain ⟨b, _, hb⟩ := h
        exact Or.inr ⟨b, hb.symm⟩
      · exact ih _ e h

theorem onIndexSetup_events (c : MeiliClient) (indexName : String) (e : SyncEvent)
    (h : e ∈ onIndexSetup (some c) indexName) :
    e = SyncEvent.getOrCreateIndex indexName
    ∨ e = SyncEvent.updateSearchableAttributes indexName articleSearchableAttributes
    ∨ e = SyncEvent.updateSortableAttributes indexName articleSortableAttributes
    ∨ e = SyncEvent.updateFilterableAttributes indexName filterableAttributes := by
  simp only [onIndexSetup] at h
  cases hg : c.getIndex indexName with
  | none =>
    rw [hg] at h
    simp only [List.mem_singleton] at h
    exact Or.inl h
  | some s =>
    rw [hg] at h
    split at h <;> simp at h <;> tauto

theorem filterMap_fetchPageInfo_submit (indexName : String)
    (bs : List (List ArticleIndexRecord)) :
    (bs.map (fun b => SyncEvent.submitBatch indexName b)).filterMap fetchPageInfo = [] := by
  induction bs with
  | nil => rfl
  | cons b rest ih => simp [fetchPageInfo, ih]

theorem syncLoopGo_fetchChain (db : Db) (indexName : String)
    (whereOr : Option (List ArticleWhereInput)) :
    ∀ (fuel offset : Nat),
      (db.articles.filter (articleWhere whereOr)).length - offset < fuel →
      ∃ s rest,
        (syncLoopGo db indexName whereOr offset fuel).1.filterMap fetchPageInfo
            = (offset, s) :: rest
        ∧ fetchChainOk ((offset, s) :: rest) = true := by
  intro fuel
  induction fuel with
  | zero => intro offset h; omega
  | succ n ih =>
    intro offset h
    by_cases h0 : (onFetchItemsToIndex db.articles whereOr (some offset)).length = 0
    · refine ⟨0, [], ?_, rfl⟩
      simp [syncLoopGo, h0, fetchPageInfo]
    · have hLmin := onFetchItemsToIndex_length db.articles whereOr offset
      have hfuel2 : (db.articles.filter (articleWhere whereOr)).length
          - (offset + (onFetchItemsToIndex db.articles whereOr (some offset)).length) < n := by
        omega
      obtain ⟨s, rest, heq, hok⟩ :=
        ih (offset + (onFetchItemsToIndex db.articles whereOr (some offset)).length) hfuel2
      refine ⟨(onFetchItemsToIndex db.articles whereOr (some offset)).length,
        (offset + (onFetchItemsToIndex db.articles whereOr (some offset)).length, s) :: rest,
        ?_, ?_⟩
      · simp only [syncLoopGo]
        rw [if_neg h0]
        simp only [List.filterMap_cons, List.filterMap_append,
          filterMap_fetchPageInfo_submit, fetchPageInfo, List.nil_append]
        rw [heq]
      · simp only [fetchChainOk, hok, Bool.and_true, Bool.and_eq_true, bne_iff_ne,
          ne_eq, beq_iff_eq]
        exact ⟨h0, trivial⟩

theorem onIndexUpdate_trace (c : MeiliClient) (db : Db) (lastUpdatedAt : Option Nat)
    (indexName : String) (maxRetries : Nat) :
    (onIndexUpdate (some c) db lastUpdatedAt indexName maxRetries).1
      = onIndexSetup (some c) indexName
        ++ [SyncEvent.documentsCleanup INDEX_ID, SyncEvent.readUpdateQueue INDEX_ID]
        ++ (syncLoop db indexName (articleWhereOr lastUpdatedAt (dirtyIdSnapshot db)) 0).1
        ++ [SyncEvent.waitForTasks
              (syncLoop db indexName (articleWhereOr lastUpdatedAt (dirtyIdSnapshot db)) 0).2.length] :=
  rfl

/-! Claim theorems. -/

/-- C1: every page fetch of `onIndexUpdate` uses the filter
`articleWhereOr lastUpdatedAt (dirtyIdSnapshot db)`; without a watermark
that filter is `none` and the fetch `where` clause degenerates to the
baseline predicates alone (an unconditional full scan, no `OR`
restriction); with watermark `w` the clause holds of an article exactly
when additionally `createdAt > w`, or `updatedAt > w`, or its id is in the
dirty-queue id snapshot. -/
theorem c1_fetch_filter_disjunction (c : MeiliClient) (db : Db)
    (lastUpdatedAt : Option Nat) (indexName : String) (maxRetries : Nat) :
    (∀ w off sz,
        SyncEvent.fetchPage w off sz
            ∈ (onIndexUpdate (some c) db lastUpdatedAt indexName maxRetries).1 →
        w = articleWhereOr lastUpdatedAt (dirtyIdSnapshot db))
    ∧ articleWhereOr none (dirtyIdSnapshot db) = none
    ∧ (∀ a : Article, articleWhere none a = articleBaseWhere a)
    ∧ (∀ (wm : Nat) (a : Article),
        articleWhere (articleWhereOr (some wm) (dirtyIdSnapshot db)) a
          = (articleBaseWhere a &&
              (decide (wm < a.createdAt) || decide (wm < a.updatedAt)
                || (dirtyIdSnapshot db).contains a.id))) := by
  refine ⟨?_, rfl, ?_, ?_⟩
  · intro w off sz h
    rw [onIndexUpdate_trace] at h
    simp only [List.append_assoc, List.mem_append, List.mem_cons, List.mem_singleton,
      List.not_mem_nil, or_false] at h
    rcases h with h | (h | h) | h | h
    · rcases onIndexSetup_events c indexName _ h with h1 | h1 | h1 | h1 <;> simp at h1
    · simp at h
    · simp at h
    · rw [syncLoop] at h
      rcases syncLoopGo_events db indexName _ _ _ _ h with ⟨o, s, h1⟩ | ⟨b, h1⟩
      · simp only [SyncEvent.fetchPage.injEq] at h1
        exact h1.1
      · simp at h1
    · simp at h
  · intro a
    simp [articleWhere]
  · intro wm a
    simp [articleWhere, articleWhereOr, evalWhereInput, Bool.or_assoc]

/-- Witness for C1 at a concrete client, store and watermark. -/
theorem c1_fetch_filter_disjunction_witness :
    (SyncEvent.fetchPage (articleWhereOr (some 5) (dirtyIdSnapshot sampleDb)) 0 1
        ∈ (onIndexUpdate (some sampleClientOk) sampleDb (some 5) "articles" 3).1)
    ∧ articleWhereOr (some 5) (dirtyIdSnapshot sampleDb)
        = articleWhereOr (some 5) (dirtyIdSnapshot sampleDb) :=
  ⟨by decide,
   (c1_fetch_filter_disjunction sampleClientOk sampleDb (some 5) "articles" 3).1 _ 0 1
     (by decide)⟩

/-- C5: the documents cleanup of every `onIndexUpdate` pass is invoked
with the logical index id `INDEX_ID = "articles"`, and only with it,
whatever physical index name the pass is writing to (in particular the
shadow name `SWAP_INDEX_ID`, which differs from the logical id). -/
theorem c5_cleanup_gets_logical_index_id (c : MeiliClient) (db : Db)
    (lastUpdatedAt : Option Nat) (indexName : String) (maxRetries : Nat) :
    SyncEvent.documentsCleanup INDEX_ID
        ∈ (onIndexUpdate (some c) db lastUpdatedAt indexName maxRetries).1
    ∧ (∀ s, SyncEvent.documentsCleanup s
          ∈ (onIndexUpdate (some c) db lastUpdatedAt indexName maxRetries).1 →
        s = INDEX_ID)
    ∧ INDEX_ID = "articles"
    ∧ SWAP_INDEX_ID ≠ INDEX_ID := by
  refine ⟨?_, ?_, rfl, by decide⟩
  · rw [onIndexUpdate_trace]
    simp
  · intro s h
    rw [onIndexUpdate_trace] at h
    simp only [List.append_assoc, List.mem_append, List.mem_cons, List.mem_singleton,
      List.not_mem_nil, or_false] at h
    rcases h with h | (h | h) | h | h
    · rcases onIndexSetup_events c indexName _ h with h1 | h1 | h1 | h1 <;> simp at h1
    · simp only [SyncEvent.documentsCleanup.injEq] at h
      exact h
    · simp at h
    · rw [syncLoop] at h
      rcases syncLoopGo_events db indexName _ _ _ _ h with ⟨o, s2, h1⟩ | ⟨b, h1⟩ <;> simp at h1
    · simp at h

/-- Witness for C5 on a full-rebuild pass writing to the shadow index. -/
theorem c5_cleanup_gets_logical_index_id_witness :
    (SyncEvent.documentsCleanup "articles"
        ∈ (onIndexUpdate (some sampleClientOk) sampleDb none SWAP_INDEX_ID 3).1)
    ∧ ("articles" : String) = INDEX_ID :=
  ⟨by decide,
   (c5_cleanup_gets_logical_index_id sampleClientOk sampleDb none SWAP_INDEX_ID 3).2.1
     "articles" (by decide)⟩

/-- C10: when the injected search-service client handle is absent,
`onIndexSetup` and `onIndexUpdate` return immediately: the event trace is
empty (no index creation, no settings task, no cleanup, no queue read, no
fetch, no submission, no wait) and the run reports success without doing
anything. -/
theorem c10_null_client_no_ops (db : Db) (lastUpdatedAt : Option Nat)
    (indexName : String) (maxRetries : Nat) :
    onIndexSetup none indexName = []
    ∧ onIndexUpdate none db lastUpdatedAt indexName maxRetries = ([], Except.ok ()) :=
  ⟨rfl, rfl⟩

/-- C8: the document writer splits its input into consecutive sub-batches
of `MEILISEARCH_DOCUMENT_BATCH_SIZE = 25` whose concatenation is the
input; for an input of 57 documents exactly 3 submission calls occur, of
sizes 25, 25 and 7, in that order. -/
theorem c8_batching_boundary (docs : List ArticleIndexRecord)
    (h : docs.length = 57) :
    (updateDocumentsInBatches docs MEILISEARCH_DOCUMENT_BATCH_SIZE).map List.length
        = [25, 25, 7]
    ∧ (updateDocumentsInBatches docs MEILISEARCH_DOCUMENT_BATCH_SIZE).flatten = docs := by
  constructor
  · rw [updateDocumentsInBatches, updateDocumentsInBatchesGo_lengths, h]
    decide
  · exact updateDocumentsInBatchesGo_join MEILISEARCH_DOCUMENT_BATCH_SIZE docs.length docs
      (Nat.le_refl _)

/-- Witness for C8 at a concrete 57-document input. -/
theorem c8_batching_boundary_witness :
    sampleDocs57.length = 57
    ∧ (updateDocumentsInBatches sampleDocs57 MEILISEARCH_DOCUMENT_BATCH_SIZE).map
        List.length = [25, 25, 7] :=
  ⟨by decide, (c8_batching_boundary sampleDocs57 (by decide)).1⟩

/-- C9: the batch reader returns the empty sequence exactly when the page
window over the matching entities is empty, and the fetch chain of the
paging loop is well formed: every fetch except the last returns a
nonempty page and advances the offset by exactly the page length, and the
loop stops at the first (and only) empty page. -/
theorem c9_empty_page_is_sole_exit (arts : List Article) (db : Db)
    (indexName : String) (whereOr : Option (List ArticleWhereInput))
    (skip : Option Nat) (offset : Nat) :
    (onFetchItemsToIndex arts whereOr skip = []
      ↔ ((arts.filter (articleWhere whereOr)).drop (skip.getD 0)).take READ_BATCH_SIZE = [])
    ∧ fetchChainOk (syncFetches db indexName whereOr offset) = true := by
  constructor
  · rw [onFetchItemsToIndex_eq]
    exact List.map_eq_nil_iff
  · have hb : (db.articles.filter (articleWhere whereOr)).length - offset
        < db.articles.length + 1 := by
      have := List.length_filter_le (articleWhere whereOr) db.articles
      omega
    obtain ⟨s, rest, heq, hok⟩ :=
      syncLoopGo_fetchChain db indexName whereOr (db.articles.length + 1) offset hb
    rw [syncFetches, syncLoop, heq]
    exact hok

/-- C2: when the task-waiting step of `onIndexUpdate` times out, the run
wrapper reports the failure and leaves the persistent state untouched:
the stored watermark after the run equals the watermark before it and no
dirty-queue row is deleted. -/
theorem c2_timeout_leaves_state_untouched (client : Option MeiliClient)
    (st : SyncRunState) (now : Nat) (indexName : String) (maxRetries : Nat)
    (h : (onIndexUpdate client st.db st.lastUpdatedAt indexName maxRetries).2
        = Except.error WaitError.timeout) :
    (runSearchIndexSync client st now indexName maxRetries).1 = st
    ∧ (runSearchIndexSync client st now indexName maxRetries).2
        = Except.error WaitError.timeout := by
  rw [runSearchIndexSync, h]
  exact ⟨rfl, rfl⟩

/-- Witness for C2: a client whose tasks never terminate makes the wait
step time out on a store with one matching article, and the run leaves
the state unchanged. -/
theorem c2_timeout_leaves_state_untouched_witness :
    ((onIndexUpdate (some sampleClientStalled) sampleState.db sampleState.lastUpdatedAt
        "articles" 3).2 = Except.error WaitError.timeout)
    ∧ (runSearchIndexSync (some sampleClientStalled) sampleState 99 "articles" 3).1
        = sampleState :=
  ⟨by rfl,
   (c2_timeout_leaves_state_untouched (some sampleClientStalled) sampleState 99 "articles" 3
      (by rfl)).1⟩

/-- C3 counterexample: an index whose current settings equal all three
desired attribute lists (the filterable one in the pre-sorted form the
service stores) still receives the searchable- and sortable-attributes
update tasks from `onIndexSetup`; only the filterable-attributes task is
skipped. This refutes the claim that no settings-update task is issued
for any of the three categories. -/
theorem c3_counterexample :
    sampleClientOk.getIndex "articles" = some sampleSettingsMatching
    ∧ sampleSettingsMatching.searchableAttributes = articleSearchableAttributes
    ∧ sampleSettingsMatching.sortableAttributes = articleSortableAttributes
    ∧ sampleSettingsMatching.filterableAttributes = jsSortStrings filterableAttributes
    ∧ SyncEvent.updateSearchableAttributes "articles" articleSearchableAttributes
        ∈ onIndexSetup (some sampleClientOk) "articles"
    ∧ SyncEvent.updateSortableAttributes "articles" articleSortableAttributes
        ∈ onIndexSetup (some sampleClientOk) "articles"
    ∧ SyncEvent.updateFilterableAttributes "articles" filterableAttributes
        ∉ onIndexSetup (some sampleClientOk) "articles" := by
  refine ⟨rfl, rfl, rfl, rfl, ?_, ?_, ?_⟩ <;> decide

/-- C3 amended: on every `onIndexSetup` invocation that obtains an index
handle, the searchable- and sortable-attributes update tasks are issued
unconditionally, and only the filterable-attributes category is guarded:
its update task is issued exactly when the desired list, pre-sorted the
way the service stores it, differs from the current settings. -/
theorem c3_amended_only_filterable_guarded (c : MeiliClient) (indexName : String)
    (settings : IndexSettings) (h : c.getIndex indexName = some settings) :
    (SyncEvent.updateSearchableAttributes indexName articleSearchableAttributes
        ∈ onIndexSetup (some c) indexName)
    ∧ (SyncEvent.updateSortableAttributes indexName articleSortableAttributes
        ∈ onIndexSetup (some c) indexName)
    ∧ ((SyncEvent.updateFilterableAttributes indexName filterableAttributes
          ∈ onIndexSetup (some c) indexName)
        ↔ jsSortStrings filterableAttributes ≠ settings.filterableAttributes) := by
  simp only [onIndexSetup, h]
  refine ⟨by simp, by simp, ?_⟩
  split
  · next hne => simp [hne]
  · next heq => simp [heq]

/-- Witness for C3 amended at a concrete client whose settings match. -/
theorem c3_amended_only_filterable_guarded_witness :
    sampleClientOk.getIndex "articles" = some sampleSettingsMatching
    ∧ (SyncEvent.updateSearchableAttributes "articles" articleSearchableAttributes
        ∈ onIndexSetup (some sampleClientOk) "articles") :=
  ⟨rfl,
   (c3_amended_only_filterable_guarded sampleClientOk "articles" sampleSettingsMatching rfl).1⟩

/-- C4 counterexample: for an article whose metrics sub-collection has no
all-time row, the transformed record carries the empty metrics object
(`none`, the spread of `\x7b\x7d`), not the zero-valued default object the
claim describes. -/
theorem c4_counterexample :
    (onFetchItemsToIndex [sampleArticleNoAllTime] none none).map ArticleIndexRecord.metrics
        = [none]
    ∧ (onFetchItemsToIndex [sampleArticleNoAllTime] none none).map ArticleIndexRecord.metrics
        ≠ [some zeroMetricCounts] := by
  refine ⟨?_, ?_⟩ <;> decide

/-- C4 amended: every record produced by the batch reader comes from a
source article via the record transformation, which collapses the metrics
sub-collection to the single all-time row and flattens the tag rows to
their display names; when no all-time row is present the metrics object is
empty (all metric fields absent), not zero-valued. -/
theorem c4_collapse_metrics_flatten_tags (arts : List Article)
    (whereOr : Option (List ArticleWhereInput)) (skip : Option Nat) :
    ∀ r ∈ onFetchItemsToIndex arts whereOr skip, ∃ a,
      a ∈ arts ∧ r = transformArticle (selectArticle a)
      ∧ r.tags = a.tags.map (fun articleTag => articleTag.tag.name)
      ∧ r.metrics
          = ((a.metrics.filter (fun m => m.timeframe = MetricTimeframe.AllTime)).map
              ArticleMetric.counts).head?
      ∧ (∀ m, a.metrics.filter (fun m2 => m2.timeframe = MetricTimeframe.AllTime) = [m] →
          r.metrics = some m.counts)
      ∧ (a.metrics.filter (fun m2 => m2.timeframe = MetricTimeframe.AllTime) = [] →
          r.metrics = none) := by
  intro r hr
  rw [onFetchItemsToIndex_eq] at hr
  obtain ⟨a, ha, rfl⟩ := List.mem_map.mp hr
  have hmem : a ∈ arts :=
    (List.mem_filter.mp (List.mem_of_mem_drop (List.mem_of_mem_take ha))).1
  refine ⟨a, hmem, rfl, rfl, rfl, ?_, ?_⟩
  · intro m hm
    simp [transformArticle, selectArticle, hm]
  · intro hm
    simp [transformArticle, selectArticle, hm]

/-- Witness for C4 amended at a concrete article with an all-time row. -/
theorem c4_collapse_metrics_flatten_tags_witness :
    (transformArticle (selectArticle sampleArticle)
        ∈ onFetchItemsToIndex [sampleArticle] none none)
    ∧ ∃ a, a ∈ [sampleArticle]
        ∧ transformArticle (selectArticle sampleArticle) = transformArticle (selectArticle a)
        ∧ (transformArticle (selectArticle sampleArticle)).tags
            = a.tags.map (fun articleTag => articleTag.tag.name)
        ∧ (transformArticle (selectArticle sampleArticle)).metrics
            = ((a.metrics.filter (fun m => m.timeframe = MetricTimeframe.AllTime)).map
                ArticleMetric.counts).head?
        ∧ (∀ m, a.metrics.filter (fun m2 => m2.timeframe = MetricTimeframe.AllTime) = [m] →
            (transformArticle (selectArticle sampleArticle)).metrics = some m.counts)
        ∧ (a.metrics.filter (fun m2 => m2.timeframe = MetricTimeframe.AllTime) = [] →
            (transformArticle (selectArticle sampleArticle)).metrics = none) :=
  ⟨by decide,
   c4_collapse_metrics_flatten_tags [sampleArticle] none none
     (transformArticle (selectArticle sampleArticle)) (by decide)⟩

/-- C7: every record returned by the batch reader derives from a source
article that satisfies the baseline inclusion predicates — `publishedAt`
non-null and `tosViolation` false — whatever the `whereOr` filter
configuration is; dirty-queue membership enters only through `whereOr`
and therefore never relaxes these predicates. -/
theorem c7_baseline_predicates_unconditional (arts : List Article)
    (whereOr : Option (List ArticleWhereInput)) (skip : Option Nat) :
    ∀ r ∈ onFetchItemsToIndex arts whereOr skip, ∃ a,
      a ∈ arts ∧ r = transformArticle (selectArticle a)
      ∧ a.publishedAt.isSome = true ∧ a.tosViolation = false
      ∧ r.publishedAt.isSome = true := by
  intro r hr
  rw [onFetchItemsToIndex_eq] at hr
  obtain ⟨a, ha, rfl⟩ := List.mem_map.mp hr
  have hfil := List.mem_filter.mp (List.mem_of_mem_drop (List.mem_of_mem_take ha))
  have hbase : articleBaseWhere a = true := by
    have := hfil.2
    rw [articleWhere.eq_def, Bool.and_eq_true] at this
    exact this.1
  rw [articleBaseWhere, Bool.and_eq_true, Bool.not_eq_true'] at hbase
  exact ⟨a, hfil.1, rfl, hbase.1, hbase.2, by
    simp [transformArticle, selectArticle, hbase.1]⟩

/-- Witness for C7 at a concrete article passing a dirty-queue id filter. -/
theorem c7_baseline_predicates_unconditional_witness :
    (transformArticle (selectArticle sampleArticle)
        ∈ onFetchItemsToIndex [sampleArticle] (some [ArticleWhereInput.idIn [7]]) none)
    ∧ ∃ a, a ∈ [sampleArticle]
        ∧ transformArticle (selectArticle sampleArticle) = transformArticle (selectArticle a)
        ∧ a.publishedAt.isSome = true ∧ a.tosViolation = false
        ∧ (transformArticle (selectArticle sampleArticle)).publishedAt.isSome = true :=
  ⟨by decide,
   c7_baseline_predicates_unconditional [sampleArticle] (some [ArticleWhereInput.idIn [7]])
     none (transformArticle (selectArticle sampleArticle)) (by decide)⟩

/-- C6: the dirty-queue id snapshot is read exactly once per pass, before
the paging loop: the trace splits around a single queue-read event whose
prefix contains no fetch, every fetch (all in the suffix) carries the one
filter built from that snapshot, and the id disjunct of that filter is
extensionally the deduplicated snapshot (duplicate ids do not change its
meaning). -/
theorem c6_snapshot_captured_once (c : MeiliClient) (db : Db)
    (lastUpdatedAt : Option Nat) (indexName : String) (maxRetries : Nat) :
    ∃ pre post,
      (onIndexUpdate (some c) db lastUpdatedAt indexName maxRetries).1
          = pre ++ SyncEvent.readUpdateQueue INDEX_ID :: post
      ∧ pre.all (fun e => !isReadUpdateQueue e && !isFetchPage e) = true
      ∧ post.all (fun e => !isReadUpdateQueue e) = true
      ∧ (∀ w off sz, SyncEvent.fetchPage w off sz ∈ post →
            w = articleWhereOr lastUpdatedAt (dirtyIdSnapshot db))
      ∧ (∀ a : Article,
            evalWhereInput (ArticleWhereInput.idIn (dirtyIdSnapshot db)) a
              = evalWhereInput (ArticleWhereInput.idIn (dirtyIdSnapshot db).dedup) a) := by
  refine ⟨onIndexSetup (some c) indexName ++ [SyncEvent.documentsCleanup INDEX_ID],
    (syncLoop db indexName (articleWhereOr lastUpdatedAt (dirtyIdSnapshot db)) 0).1
      ++ [SyncEvent.waitForTasks
            (syncLoop db indexName (articleWhereOr lastUpdatedAt (dirtyIdSnapshot db)) 0).2.length],
    ?_, ?_, ?_, ?_, ?_⟩
  · rw [onIndexUpdate_trace]
    simp
  · rw [List.all_eq_true]
    intro e he
    simp only [List.mem_append, List.mem_singleton] at he
    rcases he with he | he
    · rcases onIndexSetup_events c indexName e he with h1 | h1 | h1 | h1 <;>
        subst h1 <;> rfl
    · subst he
      rfl
  · rw [List.all_eq_true]
    intro e he
    simp only [List.mem_append, List.mem_singleton] at he
    rcases he with he | he
    · rw [syncLoop] at he
      rcases syncLoopGo_events db indexName _ _ _ _ he with ⟨o, s, h1⟩ | ⟨b, h1⟩ <;>
        subst h1 <;> rfl
    · subst he
      rfl
  · intro w off sz h
    simp only [List.mem_append, List.mem_singleton] at h
    rcases h with h | h
    · rw [syncLoop] at h
      rcases syncLoopGo_events db indexName _ _ _ _ h with ⟨o, s, h1⟩ | ⟨b, h1⟩
      · simp only [SyncEvent.fetchPage.injEq] at h1
        exact h1.1
      · simp at h1
    · simp at h
  · intro a
    simp [evalWhereInput]

/-- Witness for C6 at a concrete client and store whose dirty queue holds
a duplicated id. -/
theorem c6_snapshot_captured_once_witness :
    ∃ pre post,
      (onIndexUpdate (some sampleClientOk) sampleDb (some 5) "articles" 3).1
          = pre ++ SyncEvent.readUpdateQueue INDEX_ID :: post
      ∧ pre.all (fun e => !isReadUpdateQueue e && !isFetchPage e) = true
      ∧ post.all (fun e => !isReadUpdateQueue e) = true
      ∧ (∀ w off sz, SyncEvent.fetchPage w off sz ∈ post →
            w = articleWhereOr (some 5) (dirtyIdSnapshot sampleDb))
      ∧ (∀ a : Article,
            evalWhereInput (ArticleWhereInput.idIn (dirtyIdSnapshot sampleDb)) a
              = evalWhereInput (ArticleWhereInput.idIn (dirtyIdSnapshot sampleDb).dedup) a) :=
  c6_snapshot_captured_once sampleClientOk sampleDb (some 5) "articles" 3

end CivitaiSearchIndex
